import Mathlib

/-!
Shallow embedding of `src/bot.py` (postbot_telegram): the SQLite-backed FIFO
queue store (`enqueue`, `dequeue`, `peek_many`, `purge`) and the publish
engine (`publish_next`) with its failure-recovery policy.

The SQLite table `queue(id AUTOINCREMENT, kind, payload, caption)` is
modelled as a list of rows together with the next AUTOINCREMENT value.
`ORDER BY id ASC` is modelled by an explicit insertion sort on `id`, and
`DELETE FROM queue WHERE id = ?` by a filter, so the embedded operations
mirror the SQL statements rather than assuming the list is sorted.

Python-telegram-bot exceptions (`RetryAfter`, `TimedOut`, `NetworkError`,
bare `Exception`) raised by the `bot.send_*` calls are modelled as a
`SendResult` returned by a transport function `Dispatch → SendResult`.
-/

namespace PostBot

/-- A row of the `queue` table / the `QueueItem` dataclass of `bot.py`
(the `created` column is informational only and never read by the code,
so it is omitted). -/
structure QueueItem where
  id : Nat
  kind : String
  payload : String
  caption : String
  deriving DecidableEq, Repr

/-- Python `a or b` on strings: `""` is falsy. -/
def pyStrOr (a b : String) : String :=
  if a = "" then b else a

/-- Python `a or b` where `a` may be `None` (modelled as `Option String`):
both `None` and `""` are falsy. -/
def pyOptStrOr (a : Option String) (b : String) : String :=
  match a with
  | none => b
  | some s => if s = "" then b else s

/-- The durable queue store: the rows of the `queue` table plus the next
AUTOINCREMENT id (SQLite AUTOINCREMENT never reuses ids, and `DELETE`
does not reset the sequence). -/
structure Store where
  items : List QueueItem
  nextId : Nat
  deriving DecidableEq, Repr

/-- The freshly initialized store (`db_init`): empty table, AUTOINCREMENT
starts at 1. -/
def emptyStore : Store := { items := [], nextId := 1 }

/-- `enqueue(kind, payload, caption="")` of `bot.py`: INSERT a new row at
the tail with a fresh id; the bound caption value is `caption or ""`. -/
def enqueue (s : Store) (kind payload : String) (caption : Option String) : Store :=
  { items := s.items ++
      [{ id := s.nextId, kind := kind, payload := payload,
         caption := pyOptStrOr caption "" }],
    nextId := s.nextId + 1 }

/-- `SELECT ... ORDER BY id ASC` of `bot.py`, modelled by insertion sort
on the `id` column. -/
def sortById (l : List QueueItem) : List QueueItem :=
  l.insertionSort (fun a b => a.id ≤ b.id)

/-- `dequeue()` of `bot.py`: SELECT the row with the smallest id (LIMIT 1);
if there is none return `None`; otherwise DELETE that row and return
`QueueItem(id=row[0], kind=row[1], payload=row[2], caption=row[3] or "")`. -/
def dequeue (s : Store) : Option QueueItem × Store :=
  match (sortById s.items).head? with
  | none => (none, s)
  | some row =>
      (some { row with caption := pyStrOr row.caption "" },
       { s with items := s.items.filter (fun it => it.id ≠ row.id) })

/-- `peek_many(n)` of `bot.py`: SELECT ... ORDER BY id ASC LIMIT n, without
deleting anything; the store component records that the table is unchanged. -/
def peek_many (n : Nat) (s : Store) : List QueueItem × Store :=
  ((sortById s.items).take n, s)

/-- `purge()` of `bot.py`: DELETE FROM queue (the AUTOINCREMENT sequence
is kept by SQLite). -/
def purge (s : Store) : Store :=
  { s with items := [] }

/-- Outcome of one transport call, modelling the exceptions `publish_next`
catches: `RetryAfter` (with its `retry_after` attribute, absent modelled
as `none` per `getattr(e, "retry_after", 5)`), `TimedOut`, `NetworkError`,
and any other `Exception`. -/
inductive SendResult where
  | success
  | retryAfter (wait : Option Nat)
  | timedOut
  | networkError
  | otherError
  deriving DecidableEq, Repr

/-- A call the publish engine makes on the transport (`context.bot`):
`send_message(text=payload)`, `send_photo(photo=payload, caption=...)`,
`send_video(video=payload, caption=...)`. -/
inductive Dispatch where
  | sendMessage (text : String)
  | sendPhoto (photo : String) (caption : Option String)
  | sendVideo (video : String) (caption : Option String)
  deriving DecidableEq, Repr

/-- `item.caption or None` of `bot.py`: an empty caption is passed as absent. -/
def strOrNone (c : String) : Option String :=
  if c = "" then none else some c

/-- Observable outcome of one `publish_next` invocation: the store after it,
the transport calls made, the total `asyncio.sleep` duration, and the id
logged as published by the `else:` branch (if reached). -/
structure PublishResult where
  store : Store
  sends : List Dispatch
  sleep : Nat
  published : Option Nat
  deriving DecidableEq, Repr

/-- The `try/except` of `publish_next` around one transport call `d` on item
`item`, with `s1` the store after the dequeue: on `RetryAfter` re-enqueue and
sleep `int(getattr(e, "retry_after", 5)) + 1`; on `TimedOut`/`NetworkError`
re-enqueue and sleep 5; on any other exception re-enqueue without sleeping;
on success the `else:` branch logs the item as published. -/
def finishSend (transport : Dispatch → SendResult) (s1 : Store)
    (item : QueueItem) (d : Dispatch) : PublishResult :=
  match transport d with
  | SendResult.success =>
      { store := s1, sends := [d], sleep := 0, published := some item.id }
  | SendResult.retryAfter w =>
      { store := enqueue s1 item.kind item.payload (some item.caption),
        sends := [d], sleep := w.getD 5 + 1, published := none }
  | SendResult.timedOut =>
      { store := enqueue s1 item.kind item.payload (some item.caption),
        sends := [d], sleep := 5, published := none }
  | SendResult.networkError =>
      { store := enqueue s1 item.kind item.payload (some item.caption),
        sends := [d], sleep := 5, published := none }
  | SendResult.otherError =>
      { store := enqueue s1 item.kind item.payload (some item.caption),
        sends := [d], sleep := 0, published := none }

/-- `publish_next` of `bot.py`: dequeue one item (do nothing when empty),
dispatch on `kind` through the `if/elif` chain (an unmatched `kind` makes no
transport call, raises nothing, and so falls through to the `else:` branch),
and apply the failure-recovery policy of the `except` clauses. -/
def publish_next (transport : Dispatch → SendResult) (s : Store) : PublishResult :=
  match dequeue s with
  | (none, s1) => { store := s1, sends := [], sleep := 0, published := none }
  | (some item, s1) =>
      if item.kind = "text" then
        finishSend transport s1 item (Dispatch.sendMessage item.payload)
      else if item.kind = "photo" then
        finishSend transport s1 item
          (Dispatch.sendPhoto item.payload (strOrNone item.caption))
      else if item.kind = "video" then
        finishSend transport s1 item
          (Dispatch.sendVideo item.payload (strOrNone item.caption))
      else
        { store := s1, sends := [], sleep := 0, published := some item.id }

/-- The transport call `publish_next` makes for a known-kind item. -/
def dispatchOf (item : QueueItem) : Dispatch :=
  if item.kind = "text" then Dispatch.sendMessage item.payload
  else if item.kind = "photo" then
    Dispatch.sendPhoto item.payload (strOrNone item.caption)
  else Dispatch.sendVideo item.payload (strOrNone item.caption)

/-- Well-formedness of a reachable store: rows are listed in strictly
increasing id order and every id is below the AUTOINCREMENT counter. -/
def Store.WF (s : Store) : Prop :=
  s.items.Pairwise (fun a b => a.id < b.id) ∧ ∀ it ∈ s.items, it.id < s.nextId

instance (s : Store) : Decidable s.WF := by
  unfold Store.WF; infer_instance

/-- One enqueue request as the ingestion surface issues it:
kind, payload, caption argument (`none` models an omitted/None caption). -/
def Req : Type := String × String × Option String

/-- `enqueue` each request in order. -/
def enqueueAll (s : Store) (rs : List Req) : Store :=
  rs.foldl (fun st r => enqueue st r.1 r.2.1 r.2.2) s

/-- `dequeue` `n` times, collecting the returned items. -/
def dequeueAll (s : Store) : Nat → List QueueItem × Store
  | 0 => ([], s)
  | n + 1 =>
      match dequeue s with
      | (none, s1) => ([], s1)
      | (some it, s1) =>
          let r := dequeueAll s1 n
          (it :: r.1, r.2)

/-- The content of an item, forgetting its id. -/
def view (it : QueueItem) : String × String × String :=
  (it.kind, it.payload, it.caption)

/-- The content a request is stored with (caption normalized as `enqueue`
does). -/
def normReq (r : Req) : String × String × String :=
  (r.1, r.2.1, pyOptStrOr r.2.2 "")

/-- A small concrete store used to instantiate the theorems. -/
def demoStore : Store :=
  { items := [⟨1, "text", "A", ""⟩, ⟨2, "photo", "B", "c"⟩], nextId := 3 }

/-- A concrete store whose first item is a photo with a caption. -/
def photoStore : Store :=
  { items := [⟨2, "photo", "B", "c"⟩], nextId := 3 }

/-! ### Helper lemmas about the store operations -/

theorem pyStrOr_empty (c : String) : pyStrOr c "" = c := by
  unfold pyStrOr
  split
  · simp [*]
  · rfl

theorem pyOptStrOr_empty (c : Option String) : pyOptStrOr c "" = c.getD "" := by
  unfold pyOptStrOr
  cases c with
  | none => rfl
  | some s =>
    simp only [Option.getD_some]
    split
    · simp [*]
    · rfl

theorem sortById_eq_self {l : List QueueItem}
    (h : l.Pairwise (fun a b => a.id < b.id)) : sortById l = l := by
  apply List.Sorted.insertionSort_eq
  exact h.imp (fun hab => Nat.le_of_lt hab)

theorem filter_ne_head (it : QueueItem) (t : List QueueItem)
    (h : ∀ b ∈ t, it.id < b.id) :
    (it :: t).filter (fun x => x.id ≠ it.id) = t := by
  rw [List.filter_cons]
  have hfalse : (decide (it.id ≠ it.id)) = false := by simp
  rw [hfalse]
  simp only [Bool.false_eq_true, if_false]
  apply List.filter_eq_self.mpr
  intro a ha
  simpa using Nat.ne_of_gt (h a ha)

theorem dequeue_of_cons (s : Store) (it : QueueItem) (t : List QueueItem)
    (hp : s.items.Pairwise (fun a b => a.id < b.id)) (he : s.items = it :: t) :
    dequeue s = (some it, { s with items := t }) := by
  have htail : ∀ b ∈ t, it.id < b.id := by
    rw [he] at hp
    exact (List.pairwise_cons.mp hp).1
  have hsort : sortById s.items = s.items := sortById_eq_self hp
  unfold dequeue
  rw [hsort, he]
  simp only [List.head?_cons]
  rw [pyStrOr_empty, filter_ne_head it t htail]

theorem enqueue_WF (s : Store) (k p : String) (c : Option String) (h : s.WF) :
    (enqueue s k p c).WF := by
  obtain ⟨hp, hb⟩ := h
  unfold Store.WF enqueue
  simp only
  constructor
  · rw [List.pairwise_append]
    refine ⟨hp, List.pairwise_singleton _ _, ?_⟩
    intro a ha b hb2
    rw [List.mem_singleton] at hb2
    subst hb2
    exact hb a ha
  · intro it hit
    rw [List.mem_append, List.mem_singleton] at hit
    rcases hit with h1 | h2
    · exact Nat.lt_trans (hb it h1) (Nat.lt_succ_self _)
    · subst h2
      exact Nat.lt_succ_self _

theorem dequeue_WF (s : Store) (h : s.WF) : (dequeue s).2.WF := by
  obtain ⟨hp, hb⟩ := h
  unfold dequeue
  cases hh : (sortById s.items).head? with
  | none => exact ⟨hp, hb⟩
  | some row =>
    simp only
    refine ⟨?_, ?_⟩
    · exact List.Pairwise.sublist (List.filter_sublist _) hp
    · intro it hit
      exact hb it (List.mem_of_mem_filter hit)

theorem enqueueAll_cons (s : Store) (r : Req) (rs : List Req) :
    enqueueAll s (r :: rs) = enqueueAll (enqueue s r.1 r.2.1 r.2.2) rs := rfl

theorem enqueueAll_WF (rs : List Req) : ∀ s : Store, s.WF → (enqueueAll s rs).WF := by
  induction rs with
  | nil => intro s h; exact h
  | cons r rs ih =>
    intro s h
    exact ih _ (enqueue_WF s r.1 r.2.1 r.2.2 h)

theorem enqueueAll_view (rs : List Req) : ∀ s : Store,
    (enqueueAll s rs).items.map view = s.items.map view ++ rs.map normReq := by
  induction rs with
  | nil => intro s; simp [enqueueAll]
  | cons r rs ih =>
    intro s
    rw [enqueueAll_cons, ih]
    simp [enqueue, view, normReq]

theorem dequeueAll_of_WF (l : List QueueItem) : ∀ s : Store, s.WF → s.items = l →
    dequeueAll s l.length = (l, { s with items := [] }) := by
  induction l with
  | nil =>
    intro s hw he
    cases s
    simp only at he
    subst he
    rfl
  | cons it t ih =>
    intro s hw he
    have hd := dequeue_of_cons s it t hw.1 he
    have hw2 : Store.WF { s with items := t } := by
      constructor
      · have h1 := hw.1
        rw [he] at h1
        exact (List.pairwise_cons.mp h1).2
      · intro b hb
        exact hw.2 b (by rw [he]; exact List.mem_cons_of_mem _ hb)
    rw [List.length_cons]
    unfold dequeueAll
    rw [hd]
    simp only
    rw [ih { s with items := t } hw2 rfl]

theorem publish_next_known (t : Dispatch → SendResult) (s : Store) (item : QueueItem)
    (s1 : Store) (hd : dequeue s = (some item, s1))
    (hk : item.kind = "text" ∨ item.kind = "photo" ∨ item.kind = "video") :
    publish_next t s = finishSend t s1 item (dispatchOf item) := by
  unfold publish_next dispatchOf
  rw [hd]
  rcases hk with h | h | h <;> simp [h]

theorem finishSend_failure_store (t : Dispatch → SendResult) (s1 : Store)
    (item : QueueItem) (d : Dispatch) (hf : t d ≠ SendResult.success) :
    (finishSend t s1 item d).store =
      enqueue s1 item.kind item.payload (some item.caption) := by
  unfold finishSend
  cases hr : t d with
  | success => exact absurd hr hf
  | retryAfter w => rfl
  | timedOut => rfl
  | networkError => rfl
  | otherError => rfl

theorem finishSend_sends (t : Dispatch → SendResult) (s1 : Store)
    (item : QueueItem) (d : Dispatch) : (finishSend t s1 item d).sends = [d] := by
  unfold finishSend
  cases t d <;> rfl

theorem enqueue_tail (s : Store) (k p c : String) :
    (enqueue s k p (some c)).items = s.items ++ [⟨s.nextId, k, p, c⟩] := by
  unfold enqueue
  simp [pyOptStrOr_empty]

theorem emptyStore_WF : emptyStore.WF := by
  constructor
  · exact List.Pairwise.nil
  · intro it hit
    simp [emptyStore] at hit

/-! ### Claims -/

/-- Claim C1: FIFO ordering — for any sequence of `n` enqueues `E1..En` on an
initially empty store followed by `n` dequeues, the items are returned exactly
in the order `E1..En` (each with its enqueued kind, payload and stored
caption). -/
theorem fifo_order (rs : List Req) :
    (dequeueAll (enqueueAll emptyStore rs) rs.length).1.map view = rs.map normReq := by
  have hw : (enqueueAll emptyStore rs).WF := enqueueAll_WF rs emptyStore emptyStore_WF
  have hv := enqueueAll_view rs emptyStore
  have hlen : (enqueueAll emptyStore rs).items.length = rs.length := by
    have hc := congrArg List.length hv
    simpa [emptyStore] using hc
  rw [← hlen,
    dequeueAll_of_WF (enqueueAll emptyStore rs).items (enqueueAll emptyStore rs) hw rfl]
  simpa [emptyStore] using hv

/-- Claim C2: no loss on failure — for every delivery failure the engine
handles (rate-limit, network failure, any other exception), after the recovery
step the store contains an item with the same kind, payload and caption as the
dequeued item, at a fresh id strictly greater than all ids present. -/
theorem no_loss_on_failure (t : Dispatch → SendResult) (s : Store) (item : QueueItem)
    (s1 : Store) (hw : s.WF) (hd : dequeue s = (some item, s1))
    (hk : item.kind = "text" ∨ item.kind = "photo" ∨ item.kind = "video")
    (hf : t (dispatchOf item) ≠ SendResult.success) :
    ∃ fresh : QueueItem,
      (publish_next t s).store.items = s1.items ++ [fresh] ∧
      fresh.kind = item.kind ∧ fresh.payload = item.payload ∧
      fresh.caption = item.caption ∧
      ∀ b ∈ s1.items, b.id < fresh.id := by
  have hs1 : s1.WF := by
    have h2 := dequeue_WF s hw
    rw [hd] at h2
    exact h2
  rw [publish_next_known t s item s1 hd hk,
    finishSend_failure_store t s1 item (dispatchOf item) hf]
  refine ⟨⟨s1.nextId, item.kind, item.payload, item.caption⟩,
    enqueue_tail s1 item.kind item.payload item.caption, rfl, rfl, rfl, ?_⟩
  intro b hb
  exact hs1.2 b hb

theorem no_loss_on_failure_witness :
    ∃ fresh : QueueItem,
      (publish_next (fun _ => SendResult.networkError) demoStore).store.items =
        [QueueItem.mk 2 "photo" "B" "c"] ++ [fresh] ∧
      fresh.kind = "text" ∧ fresh.payload = "A" ∧ fresh.caption = "" ∧
      ∀ b ∈ [QueueItem.mk 2 "photo" "B" "c"], b.id < fresh.id :=
  no_loss_on_failure (fun _ => SendResult.networkError) demoStore
    ⟨1, "text", "A", ""⟩ ⟨[⟨2, "photo", "B", "c"⟩], 3⟩
    (by decide) (by decide) (Or.inl rfl) (by decide)

/-- Claim C3: the claim says an unknown `kind` is treated as an
other/unexpected delivery failure (re-enqueued, reported, never dropped).
The code disagrees: in `publish_next` an unmatched `kind` falls through the
`if/elif` chain without any transport call and without raising, so the `else:`
branch logs the item as published while the dequeued row is already deleted —
the item is silently dropped. This theorem evaluates the code on a store
holding one item of kind `"sticker"`: afterwards the store is empty, no
transport call was made, nothing was re-enqueued, and the engine logged the
item as published. -/
theorem unknown_kind_drops_item :
    publish_next (fun _ => SendResult.success)
        { items := [⟨1, "sticker", "S", "c"⟩], nextId := 2 } =
      { store := { items := [], nextId := 2 }, sends := [], sleep := 0,
        published := some 1 } := by
  decide

/-- Claim C4: backoff policy per failure class — a rate-limit failure carrying
wait duration `w` makes the engine sleep `w + 1`; a transient network failure
(`TimedOut` or `NetworkError`) makes it sleep a fixed 5; any other failure
does not sleep at all. -/
theorem backoff_policy (t : Dispatch → SendResult) (s : Store) (item : QueueItem)
    (s1 : Store) (w : Nat) (hd : dequeue s = (some item, s1))
    (hk : item.kind = "text" ∨ item.kind = "photo" ∨ item.kind = "video") :
    (t (dispatchOf item) = SendResult.retryAfter (some w) →
        (publish_next t s).sleep = w + 1) ∧
    (t (dispatchOf item) = SendResult.timedOut → (publish_next t s).sleep = 5) ∧
    (t (dispatchOf item) = SendResult.networkError → (publish_next t s).sleep = 5) ∧
    (t (dispatchOf item) = SendResult.otherError → (publish_next t s).sleep = 0) := by
  rw [publish_next_known t s item s1 hd hk]
  unfold finishSend
  refine ⟨?_, ?_, ?_, ?_⟩ <;> intro hr <;> (rw [hr]; try rfl)

theorem backoff_policy_witness :
    (publish_next (fun _ => SendResult.retryAfter (some 3)) demoStore).sleep = 3 + 1 :=
  (backoff_policy (fun _ => SendResult.retryAfter (some 3)) demoStore
      ⟨1, "text", "A", ""⟩ ⟨[⟨2, "photo", "B", "c"⟩], 3⟩ 3
      (by decide) (Or.inl rfl)).1 (by decide)

/-- Claim C5: empty-queue no-op — on an empty store a publish cycle dequeues
nothing, makes no transport call, raises nothing and leaves the store
unchanged. -/
theorem empty_queue_noop (t : Dispatch → SendResult) (s : Store) (h : s.items = []) :
    publish_next t s = { store := s, sends := [], sleep := 0, published := none } := by
  unfold publish_next dequeue
  rw [h]
  rfl

theorem empty_queue_noop_witness :
    publish_next (fun _ => SendResult.success) emptyStore =
      { store := emptyStore, sends := [], sleep := 0, published := none } :=
  empty_queue_noop (fun _ => SendResult.success) emptyStore rfl

/-- Claim C6: purge idempotence — after `purge` every `peek_many` returns the
empty sequence, and a second `purge` is a no-op with the same observable
result (still empty). -/
theorem purge_idempotent (s : Store) (n : Nat) :
    (peek_many n (purge s)).1 = [] ∧ purge (purge s) = purge s ∧
    (peek_many n (purge (purge s))).1 = [] := by
  refine ⟨?_, rfl, ?_⟩ <;> simp [peek_many, purge, sortById, List.insertionSort]

/-- Claim C7: peek contract — `peek_many n` leaves the store unchanged and
returns the `min n (length)` items with the smallest ids, in ascending id
order: the result is a prefix of the id-sorted table, has length
`min n (length)`, is strictly ascending in id, consists of stored items, and
is downward closed under the id order. -/
theorem peek_contract (s : Store) (n : Nat) (hw : s.WF) :
    (peek_many n s).2 = s ∧
    (peek_many n s).1 = s.items.take n ∧
    (peek_many n s).1.length = min n s.items.length ∧
    (peek_many n s).1.Pairwise (fun a b => a.id < b.id) ∧
    (∀ a ∈ (peek_many n s).1, a ∈ s.items) ∧
    (∀ a ∈ (peek_many n s).1, ∀ b ∈ s.items, b.id < a.id → b ∈ (peek_many n s).1) := by
  have hsort : sortById s.items = s.items := sortById_eq_self hw.1
  unfold peek_many
  rw [hsort]
  refine ⟨rfl, rfl, List.length_take _ _, ?_, ?_, ?_⟩
  · exact List.Pairwise.sublist (List.take_sublist _ _) hw.1
  · intro a ha
    exact (List.take_sublist _ _).subset ha
  · intro a ha b hb hlt
    have hsplit : s.items = s.items.take n ++ s.items.drop n :=
      (List.take_append_drop n s.items).symm
    have hp := hw.1
    rw [hsplit] at hp
    have hcross := (List.pairwise_append.mp hp).2.2
    have hb2 : b ∈ s.items.take n ∨ b ∈ s.items.drop n := by
      rw [hsplit] at hb
      exact List.mem_append.mp hb
    rcases hb2 with hb2 | hb2
    · exact hb2
    · exact absurd (hcross a ha b hb2) (Nat.lt_asymm hlt)

theorem peek_contract_witness :
    (peek_many 1 demoStore).2 = demoStore ∧
    (peek_many 1 demoStore).1 = demoStore.items.take 1 :=
  ⟨(peek_contract demoStore 1 (by decide)).1, (peek_contract demoStore 1 (by decide)).2.1⟩

/-- Claim C8: caption treated as absent if empty — a photo/video item is
dispatched with its caption, except that an empty-string caption is passed as
absent (`none`); a text item is dispatched with its payload and no caption
parameter at all (`sendMessage` has none). -/
theorem caption_dispatch (t : Dispatch → SendResult) (s : Store) (item : QueueItem)
    (s1 : Store) (hd : dequeue s = (some item, s1)) :
    (item.kind = "text" →
        (publish_next t s).sends = [Dispatch.sendMessage item.payload]) ∧
    (item.kind = "photo" →
        (publish_next t s).sends =
          [Dispatch.sendPhoto item.payload
            (if item.caption = "" then none else some item.caption)]) ∧
    (item.kind = "video" →
        (publish_next t s).sends =
          [Dispatch.sendVideo item.payload
            (if item.caption = "" then none else some item.caption)]) := by
  refine ⟨fun h => ?_, fun h => ?_, fun h => ?_⟩
  · rw [publish_next_known t s item s1 hd (Or.inl h), finishSend_sends]
    simp [dispatchOf, h]
  · rw [publish_next_known t s item s1 hd (Or.inr (Or.inl h)), finishSend_sends]
    simp [dispatchOf, strOrNone, h]
  · rw [publish_next_known t s item s1 hd (Or.inr (Or.inr h)), finishSend_sends]
    simp [dispatchOf, strOrNone, h]

theorem caption_dispatch_witness :
    (publish_next (fun _ => SendResult.success) photoStore).sends =
      [Dispatch.sendPhoto "B" (some "c")] :=
  (caption_dispatch (fun _ => SendResult.success) photoStore
      ⟨2, "photo", "B", "c"⟩ ⟨[], 3⟩ (by decide)).2.1 rfl

/-- Claim C9: dequeue frame property — on a well-formed non-empty store,
`dequeue` removes exactly the item with the smallest id and returns it; every
other stored item is kept unchanged, in the same relative order, and the
removed item's id is strictly below all remaining ids. -/
theorem dequeue_frame (s : Store) (it : QueueItem) (rest : List QueueItem)
    (hw : s.WF) (he : s.items = it :: rest) :
    dequeue s = (some it, { s with items := rest }) ∧ ∀ b ∈ rest, it.id < b.id := by
  refine ⟨dequeue_of_cons s it rest hw.1 he, ?_⟩
  have h1 := hw.1
  rw [he] at h1
  exact (List.pairwise_cons.mp h1).1

theorem dequeue_frame_witness :
    dequeue demoStore = (some (QueueItem.mk 1 "text" "A" ""),
        { demoStore with items := [QueueItem.mk 2 "photo" "B" "c"] }) ∧
      ∀ b ∈ [QueueItem.mk 2 "photo" "B" "c"],
        (QueueItem.mk 1 "text" "A" "").id < b.id :=
  dequeue_frame demoStore (QueueItem.mk 1 "text" "A" "")
    [QueueItem.mk 2 "photo" "B" "c"] (by decide) rfl

/-- Claim C10: caption normalization — `enqueue` stores a falsy caption
argument (`none` or `""`, via Python `caption or ""`) as the empty string, so
the stored caption is always `caption.getD ""`; and a dequeued item is one of
the stored rows, hence its caption is always one of those strings (empty
meaning no caption). -/
theorem caption_normalization (s : Store) (k p : String) (c : Option String) :
    ((enqueue s k p c).items.getLast?).map QueueItem.caption = some (c.getD "") ∧
    ∀ item s1, dequeue s = (some item, s1) → item ∈ s.items := by
  constructor
  · unfold enqueue
    simp [pyOptStrOr_empty]
  · intro item s1 hd
    unfold dequeue at hd
    cases hl : sortById s.items with
    | nil =>
      rw [hl] at hd
      cases hd
    | cons row tl =>
      rw [hl] at hd
      simp only [List.head?_cons] at hd
      have hitem : item = { row with caption := pyStrOr row.caption "" } := by
        have hfst := congrArg Prod.fst hd
        simpa using hfst.symm
      have hrow : row ∈ s.items := by
        have hm : row ∈ sortById s.items := by
          rw [hl]
          exact List.mem_cons_self _ _
        unfold sortById at hm
        exact (List.perm_insertionSort _ _).mem_iff.mp hm
      rw [hitem, pyStrOr_empty]
      exact hrow

theorem caption_normalization_witness :
    ((enqueue emptyStore "photo" "F" (some "")).items.getLast?).map QueueItem.caption
        = some "" ∧
      QueueItem.mk 1 "text" "A" "" ∈ demoStore.items :=
  ⟨(caption_normalization emptyStore "photo" "F" (some "")).1,
    (caption_normalization demoStore "x" "y" none).2
      (QueueItem.mk 1 "text" "A" "") ⟨[⟨2, "photo", "B", "c"⟩], 3⟩ (by decide)⟩

end PostBot
